import Mathlib

/-!
Verification development for the BRAINAPP offline-first sync engine.

The definitions below are a shallow embedding of the JavaScript source:
`lib/sync-service.js` (SyncService), `lib/database.js` (schema and retry
wrapper), `repositories/projects.js`, `repositories/tasks.js` and
`repositories/tags.js`.  SQLite tables are modelled as Lean lists, the
Supabase client as an oracle structure whose fields give the outcome of
each remote call, and thrown JS exceptions as `Except.error`.
-/

namespace BrainApp

/-- One row of the local `sync_metadata` table
(`database.js`, CREATE TABLE sync_metadata; `UNIQUE(table_name, record_id)`).
The autoincrement surrogate `id` column is not modelled; rows are keyed by
the unique `(table_name, record_id)` pair.  Timestamps are abstract ticks. -/
structure SyncMetaRow where
  table_name : String
  record_id : Nat
  sync_status : String
  supabase_id : Option Nat
  last_modified : Nat
  created_at : Nat
  updated_at : Nat
deriving Repr, DecidableEq

/-- `metaKeyMatches r t i` is the SQL predicate `table_name = t AND record_id = i`. -/
def metaKeyMatches (r : SyncMetaRow) (t : String) (i : Nat) : Bool :=
  r.table_name == t && r.record_id == i

/-- Look up the (unique) metadata row for a `(table, record)` pair. -/
def findMeta (rows : List SyncMetaRow) (t : String) (i : Nat) : Option SyncMetaRow :=
  rows.find? fun r => metaKeyMatches r t i

/-- The column assignments performed by `updateSyncMetadata`'s SQL UPDATE:
set `sync_status`, optionally set `supabase_id` (the JS code passes this key
only in some call sites), and always refresh `updated_at`. -/
def modRow (r : SyncMetaRow) (newStatus : String) (newSid : Option Nat) (now : Nat) :
    SyncMetaRow :=
  { r with
    sync_status := newStatus
    supabase_id := match newSid with
      | some s => some s
      | none => r.supabase_id
    updated_at := now }

/-- `SyncService.updateSyncMetadata` (sync-service.js lines 98-110):
`UPDATE sync_metadata SET <updates>, updated_at = CURRENT_TIMESTAMP
WHERE table_name = ? AND record_id = ?`.  A plain UPDATE: rows that do not
exist are not created.  `newSid = none` models an `updates` object without
a `supabase_id` key. -/
def updateSyncMetadata (rows : List SyncMetaRow) (tableName : String) (recordId : Nat)
    (newStatus : String) (newSid : Option Nat) (now : Nat) : List SyncMetaRow :=
  rows.map fun r =>
    if metaKeyMatches r tableName recordId then modRow r newStatus newSid now else r

/-- `SyncService.insertSyncMetadata` (sync-service.js lines 113-126):
`INSERT OR REPLACE INTO sync_metadata (table_name, record_id, sync_status,
supabase_id, last_modified, created_at, updated_at) VALUES
(?, ?, 'pending', ?, CURRENT_TIMESTAMP, CURRENT_TIMESTAMP, CURRENT_TIMESTAMP)`
with `supabaseId = null` when the caller omits the argument.
Because of the `UNIQUE(table_name, record_id)` constraint, OR REPLACE drops
any existing row for the pair and inserts the fresh row (with a new rowid,
hence appended). -/
def insertSyncMetadata (rows : List SyncMetaRow) (tableName : String) (recordId : Nat)
    (supabaseId : Option Nat) (now : Nat) : List SyncMetaRow :=
  (rows.filter fun r => !(metaKeyMatches r tableName recordId)) ++
    [{ table_name := tableName, record_id := recordId, sync_status := "pending",
       supabase_id := supabaseId, last_modified := now, created_at := now,
       updated_at := now }]

/-- The WHERE clause of `getPendingChanges`: `sync_status IN ('pending', 'error')`. -/
def isPendingOrError (r : SyncMetaRow) : Bool :=
  r.sync_status == "pending" || r.sync_status == "error"

/-- `ORDER BY last_modified ASC` of `getPendingChanges`. -/
def sortByLastModified (rows : List SyncMetaRow) : List SyncMetaRow :=
  rows.insertionSort fun a b => a.last_modified ≤ b.last_modified

/-- `SyncService.getPendingChanges` (sync-service.js lines 69-86):
`SELECT ... FROM sync_metadata WHERE sync_status IN ('pending','error')
ORDER BY last_modified ASC LIMIT batchSize`.  The batch size
(`SYNC_CONFIG.BATCH_SIZE`, defined in lib/supabase.js which is not among
the sources) is kept as a parameter. -/
def getPendingChanges (rows : List SyncMetaRow) (batchSize : Nat) : List SyncMetaRow :=
  (sortByLastModified (rows.filter isPendingOrError)).take batchSize

/-- The `(table_name, record_id)` keys of a metadata table state. -/
def metaKeys (rows : List SyncMetaRow) : List (String × Nat) :=
  rows.map fun r => (r.table_name, r.record_id)

/-- Well-formedness guaranteed by the schema's `UNIQUE(table_name, record_id)`
constraint: no two metadata rows share a key. -/
def MetaKeysNodup (rows : List SyncMetaRow) : Prop :=
  (metaKeys rows).Nodup

instance (rows : List SyncMetaRow) : Decidable (MetaKeysNodup rows) := by
  unfold MetaKeysNodup
  infer_instance

/-- `SyncService.checkConnection` (sync-service.js lines 30-66) as a function of
whether Supabase is configured and whether the lightweight
`supabase.from('projects').select('count').limit(1)` read succeeds.
Result: `Except.error` models the thrown exception (the unconfigured throw is
OUTSIDE the try/catch, so it propagates); `Except.ok (ret, isOnline)` gives the
returned boolean and the `this.isOnline` value written before returning. -/
def checkConnection (configured pingOk : Bool) : Except String (Bool × Bool) :=
  if !configured then Except.error "Supabase not configured"
  else if pingOk then Except.ok (true, true)
  else Except.ok (false, false)

/-- A local business-table row as seen by `getLocalRecord` / the download
phase: the integer primary key plus the remaining named columns
(column values are kept as strings; their contents are never inspected by
the sync logic, only copied). -/
structure RRow where
  id : Nat
  fields : List (String × String)
deriving Repr, DecidableEq

/-- A remote (Supabase) call issued by the upload phase. -/
inductive RemoteOp where
  | del (table : String) (sid : Nat)
  | upd (table : String) (sid : Nat) (data : List (String × String))
  | ins (table : String) (data : List (String × String))
deriving Repr, DecidableEq

/-- Oracle for the Supabase client during the upload phase: the outcome of
each remote call.  `deleteResult` is `true` when
`.delete().eq('id', sid)` returns no error; `updateResult` / `insertResult`
return `some id` (the `result.data.id` of the returned row) on success and
`none` when `result.error` is set (which the code turns into a thrown and
then caught exception). -/
structure RemoteEnv where
  deleteResult : String → Nat → Bool
  updateResult : String → Nat → List (String × String) → Option Nat
  insertResult : String → List (String × String) → Option Nat

/-- The running `uploadedCount` / `errorCount` counters of `uploadToSupabase`. -/
structure UploadCounters where
  uploaded : Nat
  errors : Nat
deriving Repr, DecidableEq

/-- The body of the `for (const change of changes)` loop of
`SyncService.uploadToSupabase` (sync-service.js lines 157-248) for one
`change` row.  `lg` is `getLocalRecord` (a read of the business table, which
the upload phase never writes).  Result: the new `sync_metadata` state, the
new counters, and the remote calls issued.  The try/catch around the body
turns any remote error into the `sync_status = 'error'` metadata write. -/
def uploadChange (env : RemoteEnv) (lg : String → Nat → Option RRow)
    (meta : List SyncMetaRow) (counts : UploadCounters) (c : SyncMetaRow) (now : Nat) :
    List SyncMetaRow × UploadCounters × List RemoteOp :=
  match lg c.table_name c.record_id with
  | none =>
    -- record deleted locally: delete the remote counterpart if one is linked
    match c.supabase_id with
    | some sid =>
      if env.deleteResult c.table_name sid then
        (updateSyncMetadata meta c.table_name c.record_id "synced" none now,
         { counts with uploaded := counts.uploaded + 1 },
         [RemoteOp.del c.table_name sid])
      else
        (updateSyncMetadata meta c.table_name c.record_id "error" none now,
         { counts with errors := counts.errors + 1 },
         [RemoteOp.del c.table_name sid])
    | none =>
      (updateSyncMetadata meta c.table_name c.record_id "synced" none now,
       { counts with uploaded := counts.uploaded + 1 }, [])
  | some localRecord =>
    -- `delete supabaseData.id`: RRow.fields is the record without its id
    let supabaseData := localRecord.fields
    match c.supabase_id with
    | some sid =>
      match env.updateResult c.table_name sid supabaseData with
      | some newId =>
        (updateSyncMetadata meta c.table_name c.record_id "synced" (some newId) now,
         { counts with uploaded := counts.uploaded + 1 },
         [RemoteOp.upd c.table_name sid supabaseData])
      | none =>
        (updateSyncMetadata meta c.table_name c.record_id "error" none now,
         { counts with errors := counts.errors + 1 },
         [RemoteOp.upd c.table_name sid supabaseData])
    | none =>
      match env.insertResult c.table_name supabaseData with
      | some newId =>
        (updateSyncMetadata meta c.table_name c.record_id "synced" (some newId) now,
         { counts with uploaded := counts.uploaded + 1 },
         [RemoteOp.ins c.table_name supabaseData])
      | none =>
        (updateSyncMetadata meta c.table_name c.record_id "error" none now,
         { counts with errors := counts.errors + 1 },
         [RemoteOp.ins c.table_name supabaseData])

/-- Analysis view of one upload-loop iteration: what the iteration does to the
change's own metadata row. -/
inductive UpOutcome where
  | syncedKeep
  | syncedWith (sid : Nat)
  | failed
deriving Repr, DecidableEq

/-- The outcome of processing one change, a function of the change row, the
local-store read and the remote oracle only (the loop body never reads the
`sync_metadata` state it is updating). -/
def uploadOutcome (env : RemoteEnv) (lg : String → Nat → Option RRow)
    (c : SyncMetaRow) : UpOutcome :=
  match lg c.table_name c.record_id with
  | none =>
    match c.supabase_id with
    | some sid => if env.deleteResult c.table_name sid then .syncedKeep else .failed
    | none => .syncedKeep
  | some localRecord =>
    match (match c.supabase_id with
           | some sid => env.updateResult c.table_name sid localRecord.fields
           | none => env.insertResult c.table_name localRecord.fields) with
    | some newId => .syncedWith newId
    | none => .failed

/-- The `sync_status` value written for an outcome. -/
def outcomeStatus : UpOutcome → String
  | .failed => "error"
  | _ => "synced"

/-- The `supabase_id` update written for an outcome (`none` = key absent). -/
def outcomeSid : UpOutcome → Option Nat
  | .syncedWith s => some s
  | _ => none

/-- Whether the outcome increments `uploadedCount` (else `errorCount`). -/
def isUploadedOutcome : UpOutcome → Bool
  | .failed => false
  | _ => true

/-- The remote calls issued while processing one change (the same calls are
issued whether or not they succeed, so the oracle is not consulted). -/
def opsOfChange (lg : String → Nat → Option RRow)
    (c : SyncMetaRow) : List RemoteOp :=
  match lg c.table_name c.record_id with
  | none =>
    match c.supabase_id with
    | some sid => [RemoteOp.del c.table_name sid]
    | none => []
  | some localRecord =>
    match c.supabase_id with
    | some sid => [RemoteOp.upd c.table_name sid localRecord.fields]
    | none => [RemoteOp.ins c.table_name localRecord.fields]

/-- How the change's own metadata row ends up after its iteration. -/
def applyOutcomeRow (c : SyncMetaRow) (o : UpOutcome) (now : Nat) : SyncMetaRow :=
  modRow c (outcomeStatus o) (outcomeSid o) now

/-- The upload loop over the fetched batch, threading the metadata state, the
counters and the accumulated remote-call trace. -/
def uploadLoop (env : RemoteEnv) (lg : String → Nat → Option RRow) (now : Nat) :
    List SyncMetaRow → UploadCounters → List RemoteOp → List SyncMetaRow →
    List SyncMetaRow × UploadCounters × List RemoteOp
  | meta, counts, ops, [] => (meta, counts, ops)
  | meta, counts, ops, c :: cs =>
    let step := uploadChange env lg meta counts c now
    uploadLoop env lg now step.1 step.2.1 (ops ++ step.2.2) cs

/-- `SyncService.uploadToSupabase` (sync-service.js lines 144-252): fetch the
pending-or-error batch and run the upload loop (an empty batch returns 0 via
the early return, which coincides with the empty loop). -/
def uploadToSupabase (env : RemoteEnv) (lg : String → Nat → Option RRow)
    (meta : List SyncMetaRow) (batchSize now : Nat) :
    List SyncMetaRow × UploadCounters × List RemoteOp :=
  uploadLoop env lg now meta ⟨0, 0⟩ [] (getPendingChanges meta batchSize)

/-- Number of changes of a batch whose processing increments `uploadedCount`. -/
def countUploaded (env : RemoteEnv) (lg : String → Nat → Option RRow)
    (cs : List SyncMetaRow) : Nat :=
  (cs.filter fun c => isUploadedOutcome (uploadOutcome env lg c)).length

/-- Number of changes of a batch whose processing increments `errorCount`. -/
def countFailed (env : RemoteEnv) (lg : String → Nat → Option RRow)
    (cs : List SyncMetaRow) : Nat :=
  (cs.filter fun c => !isUploadedOutcome (uploadOutcome env lg c)).length

/-- `setField fields k v` models `SET k = ?` of a SQL UPDATE on a row whose
columns are `fields` (every updated key names an existing local column,
because the update list is filtered against the local schema first). -/
def setField (fields : List (String × String)) (k v : String) :
    List (String × String) :=
  fields.map fun kv => if kv.1 == k then (k, v) else kv

/-- Apply a list of column assignments to a row. -/
def updFields (updates fields : List (String × String)) : List (String × String) :=
  updates.foldl (fun acc kv => setField acc kv.1 kv.2) fields

/-- The body of the per-record loop of `SyncService.downloadFromSupabase`
(sync-service.js lines 285-351) on the success path: given the local rows of
the table being processed, the local schema's columns, and the
`sync_metadata` state, merge one remote row `r` and then call
`updateSyncMetadata(tableName, r.id, { sync_status: 'synced',
supabase_id: r.id })`.  The `id` column always exists locally (every tracked
table has an integer primary key), so the insert branch always fires. -/
def downloadProcessRecord (tableName : String) (tableRows : List RRow)
    (localColumns : List String) (meta : List SyncMetaRow) (r : RRow) (now : Nat) :
    List RRow × List SyncMetaRow :=
  let existing := tableRows.any fun x => x.id == r.id
  let filteredFields := r.fields.filter fun kv => localColumns.contains kv.1
  let newRows :=
    if existing then
      if filteredFields.isEmpty then tableRows
      else
        tableRows.map fun x =>
          if x.id == r.id then { x with fields := updFields filteredFields x.fields }
          else x
    else
      tableRows ++ [{ id := r.id, fields := filteredFields }]
  (newRows, updateSyncMetadata meta tableName r.id "synced" (some r.id) now)

/-- Environment of one `SyncService.sync` call: whether Supabase is
configured, whether the connectivity read succeeds, the outcome of the
upload phase (which can throw, e.g. when `withRetry` exhausts its retries on
a failed database re-initialisation), the download count (the download phase
catches every per-table and per-record error, so it always returns), and
whether the `sync_log` insert of `logSyncOperation` completes without
throwing (its inner try/catch swallows the SQL error, but a `withRetry`
initialisation failure still propagates, with message `logErrMsg`). -/
structure SyncEnv where
  configured : Bool
  pingOk : Bool
  uploadRes : Except String Nat
  downloadRes : Nat
  logOk : Bool
  logErrMsg : String

/-- The object resolved by `sync()`.  The JS result shapes
(`{success, message}`, `{success, uploadedCount, downloadedCount, ...}`,
`{success, error, ...}`) are merged into one record with optional fields. -/
structure SyncResultModel where
  success : Bool
  message : Option String
  error : Option String
  uploadedCount : Option Nat
  downloadedCount : Option Nat
deriving Repr, DecidableEq

/-- The try-block of `SyncService.sync` (sync-service.js lines 408-427) up to
the counters: connection check (an unconfigured throw or a failed ping both
end the pass), then upload, then download.  Also returns the names of the
store phases that were entered. -/
def syncPassBody (env : SyncEnv) : Except String (Nat × Nat) × List String :=
  match checkConnection env.configured env.pingOk with
  | Except.error e => (Except.error e, ["checkConnection"])
  | Except.ok (false, _) =>
    (Except.error "No internet connection or Supabase unavailable", ["checkConnection"])
  | Except.ok (true, _) =>
    match env.uploadRes with
    | Except.error e => (Except.error e, ["checkConnection", "uploadToSupabase"])
    | Except.ok u =>
      (Except.ok (u, env.downloadRes),
       ["checkConnection", "uploadToSupabase", "downloadFromSupabase"])

/-- `SyncService.sync` (sync-service.js lines 396-493).  The guard
`if (this.syncInProgress && !force)` rejects with the in-progress message and
touches no store.  On the success path the history write happens inside the
try, so a throwing `logSyncOperation` diverts to the catch block, whose own
`logSyncOperation` throws again and escapes `sync()` (the finally block only
clears the flag); on the failure path a throwing catch-block log write
likewise escapes.  The returned trace lists the store operations performed. -/
def sync (env : SyncEnv) (syncInProgress force : Bool) :
    Except String SyncResultModel × List String :=
  if syncInProgress && !force then
    (Except.ok { success := false, message := some "Sync already in progress",
                 error := none, uploadedCount := none, downloadedCount := none }, [])
  else
    match syncPassBody env with
    | (Except.ok (u, d), ops) =>
      if env.logOk then
        (Except.ok { success := true, message := none, error := none,
                     uploadedCount := some u, downloadedCount := some d },
         ops ++ ["logSyncOperation"])
      else
        (Except.error env.logErrMsg, ops ++ ["logSyncOperation", "logSyncOperation"])
    | (Except.error e, ops) =>
      if env.logOk then
        (Except.ok { success := false, message := none, error := some e,
                     uploadedCount := none, downloadedCount := none },
         ops ++ ["logSyncOperation"])
      else
        (Except.error env.logErrMsg, ops ++ ["logSyncOperation"])

/-- Row of the local `projects` table. -/
structure Project where
  id : Nat
  name : String
deriving Repr, DecidableEq

/-- Row of the local `tasks` table. -/
structure Task where
  id : Nat
  project_id : Nat
  title : String
  description : Option String
deriving Repr, DecidableEq

/-- Row of the local `tags` table. -/
structure Tag where
  id : Nat
  name : String
deriving Repr, DecidableEq

/-- Row of the local `task_tags` junction table (composite primary key). -/
structure TaskTag where
  task_id : Nat
  tag_id : Nat
deriving Repr, DecidableEq

/-- The local SQLite database state: the four business tables plus the
`sync_metadata` table (`database.js` schema). -/
structure LocalDb where
  projects : List Project
  tasks : List Task
  tags : List Tag
  task_tags : List TaskTag
  sync_metadata : List SyncMetaRow
deriving Repr, DecidableEq

/-- `addTagToTask` (repositories/tasks.js lines 127-136):
`INSERT OR IGNORE INTO task_tags (task_id, tag_id) VALUES (?, ?)` — the
insert is skipped when the composite key already exists.  No other table is
touched and no sync metadata is written. -/
def addTagToTask (db : LocalDb) (taskId tagId : Nat) : LocalDb × (Nat × Nat) :=
  let alreadyThere := db.task_tags.any fun tt => tt.task_id == taskId && tt.tag_id == tagId
  ({ db with task_tags :=
       if alreadyThere then db.task_tags
       else db.task_tags ++ [{ task_id := taskId, tag_id := tagId }] },
   (taskId, tagId))

/-- `removeTagFromTask` (repositories/tasks.js lines 138-147):
`DELETE FROM task_tags WHERE task_id = ? AND tag_id = ?`.  No other table is
touched and no sync metadata is written. -/
def removeTagFromTask (db : LocalDb) (taskId tagId : Nat) : LocalDb × (Nat × Nat) :=
  ({ db with task_tags :=
       db.task_tags.filter fun tt => !(tt.task_id == taskId && tt.tag_id == tagId) },
   (taskId, tagId))

/-- `deleteProject` (repositories/projects.js lines 61-86): delete all tasks
of the project, delete the project row, throw `'Project not found'` when no
project row was deleted, else upsert a pending metadata row for
`(projects, id)` only.  The pair returned is the final database state and the
JS resolution (`Except.error` = thrown). -/
def deleteProject (db : LocalDb) (id now : Nat) : LocalDb × Except String Nat :=
  -- effect order in the source: tasks deleted first, then the project row,
  -- then the not-found check, then the metadata upsert (success path only)
  if (db.projects.filter fun p => p.id == id).length == 0 then
    ({ db with tasks := db.tasks.filter fun t => t.project_id != id,
               projects := db.projects.filter fun p => p.id != id },
     Except.error "Project not found")
  else
    ({ db with tasks := db.tasks.filter fun t => t.project_id != id,
               projects := db.projects.filter fun p => p.id != id,
               sync_metadata := insertSyncMetadata db.sync_metadata "projects" id none now },
     Except.ok id)

/-- Modelled from the spec: `SYNC_CONFIG.TABLES` is defined in
`lib/supabase.js`, which is not among the sources; per the spec the tracked
tables are listed in forward dependency order — parent tables before
dependents (projects, tasks, tags, then the task_tags junction). -/
def SYNC_CONFIG_TABLES : List String := ["projects", "tasks", "tags", "task_tags"]

/-- A table-level operation performed by the bulk exporter. -/
inductive ExportOp where
  | clearTable (t : String)
  | exportTable (t : String)
deriving Repr, DecidableEq

/-- The table iteration of `SyncService.exportAllDataToSupabase`
(sync-service.js lines 552-647) at the granularity the claim is about: which
tables are cleared and exported, in which order.  The clear loop iterates
`SYNC_CONFIG.TABLES.reverse()` — JavaScript's `Array.prototype.reverse`
reverses the array IN PLACE, so after the clear loop the shared `tablesRef`
array stays reversed and the subsequent per-table export loop iterates the
reversed array.  Returns the operation trace and the final contents of the
shared array. -/
def exportAllDataToSupabase (clearSupabaseFirst : Bool) (tablesRef : List String) :
    List ExportOp × List String :=
  if clearSupabaseFirst then
    let mutated := tablesRef.reverse
    (mutated.map ExportOp.clearTable ++ mutated.map ExportOp.exportTable, mutated)
  else
    (tablesRef.map ExportOp.exportTable, tablesRef)

/-- The remote calls issued over a whole batch, in order. -/
def opsOfBatch (lg : String → Nat → Option RRow) : List SyncMetaRow → List RemoteOp
  | [] => []
  | c :: cs => opsOfChange lg c ++ opsOfBatch lg cs

/-- The concrete metadata row for the claim-C1 evaluation: a previously synced
project record `(projects, 2)` whose remote counterpart has id 7. -/
def c1PriorRow : SyncMetaRow :=
  { table_name := "projects", record_id := 2, sync_status := "synced",
    supabase_id := some 7, last_modified := 1, created_at := 1, updated_at := 1 }

/-- A local store in which every record lookup misses (all records deleted). -/
def lgNone : String → Nat → Option RRow := fun _ _ => none

/-- A remote oracle whose deletes succeed (inserts and updates unused). -/
def envDelOk : RemoteEnv :=
  { deleteResult := fun _ _ => true, updateResult := fun _ _ _ => none,
    insertResult := fun _ _ => none }

/-- A remote oracle whose every call fails. -/
def envAllFail : RemoteEnv :=
  { deleteResult := fun _ _ => false, updateResult := fun _ _ _ => none,
    insertResult := fun _ _ => none }

/-- Concrete tombstone row for the claim-C3 evaluation: pending metadata of a
locally deleted task that has a linked remote counterpart. -/
def tombRow : SyncMetaRow :=
  { table_name := "tasks", record_id := 5, sync_status := "pending",
    supabase_id := some 9, last_modified := 1, created_at := 1, updated_at := 1 }

/-- Two-row batch for the claim-C4 evaluation: the first change will fail
(remote delete error), the second will succeed. -/
def isoRow1 : SyncMetaRow :=
  { table_name := "tasks", record_id := 1, sync_status := "pending",
    supabase_id := some 9, last_modified := 1, created_at := 1, updated_at := 1 }

/-- Second row of the claim-C4 batch (no linked remote counterpart). -/
def isoRow2 : SyncMetaRow :=
  { table_name := "tasks", record_id := 2, sync_status := "pending",
    supabase_id := none, last_modified := 2, created_at := 2, updated_at := 2 }

/-- A fully healthy sync environment: configured, reachable, one record
uploaded, two downloaded, working history log. -/
def envAllOk : SyncEnv :=
  { configured := true, pingOk := true, uploadRes := Except.ok 1,
    downloadRes := 2, logOk := true, logErrMsg := "Database not initialized" }

/-- An environment whose local database cannot be (re)initialised while
writing the sync history, so `logSyncOperation`'s `withRetry` exhausts its
retries and throws. -/
def envLogFail : SyncEnv :=
  { configured := true, pingOk := true, uploadRes := Except.ok 0,
    downloadRes := 0, logOk := false, logErrMsg := "Database not initialized" }

/-- Prior pending metadata row for the claim-C5 evaluation. -/
def dlPriorRow : SyncMetaRow :=
  { table_name := "projects", record_id := 5, sync_status := "pending",
    supabase_id := none, last_modified := 1, created_at := 1, updated_at := 1 }

/-- Concrete database for the claim-C9 evaluation: one project, one task in
it (with synced metadata), one task outside it. -/
def dbNine : LocalDb :=
  { projects := [{ id := 1, name := "Inbox" }],
    tasks := [{ id := 5, project_id := 1, title := "Draft", description := none },
              { id := 6, project_id := 2, title := "Other", description := none }],
    tags := [], task_tags := [],
    sync_metadata := [{ table_name := "tasks", record_id := 5, sync_status := "synced",
                        supabase_id := some 5, last_modified := 1, created_at := 1,
                        updated_at := 1 }] }

/-- Claim C1: calling `insertSyncMetadata` on a tracked record with the
`remoteId` argument omitted is claimed to keep the prior `supabase_id`.  The
code instead performs INSERT OR REPLACE with the NULL default, so the replaced
row has `supabase_id = none`: the non-null remote id 7 of the previously
synced record `(projects, 2)` is lost, and the next upload will take the
insert branch, not the update branch. -/
theorem insertSyncMetadata_drops_prior_remote_id :
    (findMeta [c1PriorRow] "projects" 2).map SyncMetaRow.supabase_id = some (some 7) ∧
    findMeta (insertSyncMetadata [c1PriorRow] "projects" 2 none 5) "projects" 2 =
      some { table_name := "projects", record_id := 2, sync_status := "pending",
             supabase_id := none, last_modified := 5, created_at := 5,
             updated_at := 5 } := by
  decide

/-- Claim C10: `checkConnection` throws `"Supabase not configured"` when the
client is unconfigured (the throw precedes the try/catch, so it propagates
instead of returning false); when configured it returns `false` and sets
`isOnline := false` exactly when the lightweight read fails, and returns
`true` setting `isOnline := true` when it succeeds. -/
theorem checkConnection_cases (pingOk : Bool) :
    checkConnection false pingOk = Except.error "Supabase not configured" ∧
    checkConnection true false = Except.ok (false, false) ∧
    checkConnection true true = Except.ok (true, true) := by
  cases pingOk <;> exact ⟨rfl, rfl, rfl⟩

/-- Key predicate in propositional form. -/
theorem metaKeyMatches_iff (r : SyncMetaRow) (t : String) (i : Nat) :
    metaKeyMatches r t i = true ↔ r.table_name = t ∧ r.record_id = i := by
  simp [metaKeyMatches]

/-- `modRow` does not change a row's key. -/
theorem metaKeyMatches_modRow (r : SyncMetaRow) (s : String) (sid : Option Nat)
    (now : Nat) (t : String) (i : Nat) :
    metaKeyMatches (modRow r s sid now) t i = metaKeyMatches r t i := rfl

/-- Unfolding equation for `findMeta` on a nonempty table. -/
theorem findMeta_cons (r : SyncMetaRow) (rs : List SyncMetaRow) (t : String) (i : Nat) :
    findMeta (r :: rs) t i =
      if metaKeyMatches r t i then some r else findMeta rs t i := by
  cases hm : metaKeyMatches r t i <;> simp [findMeta, List.find?_cons, hm]

/-- Unfolding equation for `updateSyncMetadata` on a nonempty table. -/
theorem updateSyncMetadata_cons (r : SyncMetaRow) (rs : List SyncMetaRow)
    (t : String) (i : Nat) (s : String) (sid : Option Nat) (now : Nat) :
    updateSyncMetadata (r :: rs) t i s sid now =
      (if metaKeyMatches r t i then modRow r s sid now else r) ::
        updateSyncMetadata rs t i s sid now := rfl

/-- Unfolding equation for `insertSyncMetadata` on a nonempty table. -/
theorem insertSyncMetadata_cons (r : SyncMetaRow) (rs : List SyncMetaRow)
    (t : String) (i : Nat) (sid : Option Nat) (now : Nat) :
    insertSyncMetadata (r :: rs) t i sid now =
      if metaKeyMatches r t i then insertSyncMetadata rs t i sid now
      else r :: insertSyncMetadata rs t i sid now := by
  cases hm : metaKeyMatches r t i <;> simp [insertSyncMetadata, List.filter_cons, hm]

/-- An UPDATE targeting one key leaves the lookup of any other key unchanged. -/
theorem findMeta_update_other (rows : List SyncMetaRow) (t' : String) (i' : Nat)
    (s : String) (sid : Option Nat) (now : Nat) (t : String) (i : Nat)
    (h : ¬(t = t' ∧ i = i')) :
    findMeta (updateSyncMetadata rows t' i' s sid now) t i = findMeta rows t i := by
  induction rows with
  | nil => rfl
  | cons r rs ih =>
    rw [updateSyncMetadata_cons, findMeta_cons, findMeta_cons, ih]
    cases hm' : metaKeyMatches r t' i' with
    | false => simp
    | true =>
      have hkey' := (metaKeyMatches_iff r t' i').mp hm'
      have hm : metaKeyMatches r t i = false := by
        cases hmt : metaKeyMatches r t i with
        | false => rfl
        | true =>
          have hkey := (metaKeyMatches_iff r t i).mp hmt
          exact absurd ⟨hkey.1.symm.trans hkey'.1, hkey.2.symm.trans hkey'.2⟩ h
      simp [metaKeyMatches_modRow, hm]

/-- An UPDATE targeting a key transforms that key's lookup pointwise. -/
theorem findMeta_update_self (rows : List SyncMetaRow) (t : String) (i : Nat)
    (s : String) (sid : Option Nat) (now : Nat) :
    findMeta (updateSyncMetadata rows t i s sid now) t i =
      (findMeta rows t i).map fun r => modRow r s sid now := by
  induction rows with
  | nil => rfl
  | cons r rs ih =>
    rw [updateSyncMetadata_cons, findMeta_cons, findMeta_cons, ih]
    cases hm : metaKeyMatches r t i <;> simp [metaKeyMatches_modRow, hm]

/-- An UPDATE whose key has no row is a no-op (the UPDATE affects zero rows). -/
theorem updateSyncMetadata_eq_of_none (rows : List SyncMetaRow) (t : String) (i : Nat)
    (s : String) (sid : Option Nat) (now : Nat)
    (h : findMeta rows t i = none) :
    updateSyncMetadata rows t i s sid now = rows := by
  induction rows with
  | nil => rfl
  | cons r rs ih =>
    rw [findMeta_cons] at h
    cases hm : metaKeyMatches r t i with
    | true => rw [hm] at h; simp at h
    | false =>
      rw [hm, if_neg (by simp)] at h
      rw [updateSyncMetadata_cons, hm, if_neg (by simp), ih h]

/-- INSERT OR REPLACE leaves exactly the fresh pending row under its key. -/
theorem findMeta_insert_self (rows : List SyncMetaRow) (t : String) (i : Nat)
    (sid : Option Nat) (now : Nat) :
    findMeta (insertSyncMetadata rows t i sid now) t i =
      some { table_name := t, record_id := i, sync_status := "pending",
             supabase_id := sid, last_modified := now, created_at := now,
             updated_at := now } := by
  induction rows with
  | nil => simp [insertSyncMetadata, findMeta_cons, metaKeyMatches]
  | cons r rs ih =>
    rw [insertSyncMetadata_cons]
    cases hm : metaKeyMatches r t i with
    | true => simpa [hm] using ih
    | false =>
      rw [if_neg (by simp [hm]), findMeta_cons, hm]
      simpa using ih

/-- INSERT OR REPLACE under one key leaves every other key's lookup unchanged. -/
theorem findMeta_insert_other (rows : List SyncMetaRow) (t' : String) (i' : Nat)
    (sid : Option Nat) (now : Nat) (t : String) (i : Nat)
    (h : ¬(t = t' ∧ i = i')) :
    findMeta (insertSyncMetadata rows t' i' sid now) t i = findMeta rows t i := by
  have hnew : metaKeyMatches
      { table_name := t', record_id := i', sync_status := "pending",
        supabase_id := sid, last_modified := now, created_at := now,
        updated_at := now } t i = false := by
    cases hb : (t' == t) with
    | false => simp [metaKeyMatches, hb]
    | true =>
      cases hb2 : (i' == i) with
      | false => simp [metaKeyMatches, hb, hb2]
      | true =>
        have ht : t' = t := by simpa using hb
        have hi : i' = i := by simpa using hb2
        exact absurd ⟨ht.symm, hi.symm⟩ h
  induction rows with
  | nil =>
    show findMeta [_] t i = findMeta [] t i
    rw [findMeta_cons, hnew]
    simp
  | cons r rs ih =>
    rw [insertSyncMetadata_cons, findMeta_cons]
    cases hm' : metaKeyMatches r t' i' with
    | true =>
      have hm : metaKeyMatches r t i = false := by
        cases hmt : metaKeyMatches r t i with
        | false => rfl
        | true =>
          have hkey := (metaKeyMatches_iff r t i).mp hmt
          have hkey' := (metaKeyMatches_iff r t' i').mp hm'
          exact absurd ⟨hkey.1.symm.trans hkey'.1, hkey.2.symm.trans hkey'.2⟩ h
      rw [if_pos rfl, ih, hm]
      simp
    | false =>
      rw [if_neg (by simp [hm']), findMeta_cons, ih]

/-- In a table with unique keys, the lookup of a member's key returns the
member itself. -/
theorem findMeta_of_nodup_mem (rows : List SyncMetaRow)
    (hnd : MetaKeysNodup rows) (c : SyncMetaRow) (hc : c ∈ rows) :
    findMeta rows c.table_name c.record_id = some c := by
  induction rows with
  | nil => cases hc
  | cons r rs ih =>
    have hnd' := List.nodup_cons.mp hnd
    rcases List.mem_cons.mp hc with rfl | hc'
    · rw [findMeta_cons]
      simp [metaKeyMatches]
    · have hne : metaKeyMatches r c.table_name c.record_id = false := by
        cases hmt : metaKeyMatches r c.table_name c.record_id with
        | false => rfl
        | true =>
          have hkey := (metaKeyMatches_iff r c.table_name c.record_id).mp hmt
          refine absurd ?_ hnd'.1
          show (r.table_name, r.record_id) ∈ metaKeys rs
          rw [hkey.1, hkey.2]
          exact List.mem_map_of_mem _ hc'
      rw [findMeta_cons, hne]
      simpa using ih hnd'.2 hc'

/-- The pending batch is drawn from the metadata table. -/
theorem mem_meta_of_mem_pending (meta : List SyncMetaRow) (b : Nat)
    (c : SyncMetaRow) (hc : c ∈ getPendingChanges meta b) : c ∈ meta := by
  have h1 : c ∈ sortByLastModified (meta.filter isPendingOrError) :=
    List.mem_of_mem_take hc
  have h2 : c ∈ meta.filter isPendingOrError :=
    (List.mem_insertionSort _).mp h1
  exact List.mem_of_mem_filter h2

/-- Key uniqueness carries over from the metadata table to the pending batch. -/
theorem pendingKeys_nodup (meta : List SyncMetaRow) (b : Nat)
    (hnd : MetaKeysNodup meta) :
    (metaKeys (getPendingChanges meta b)).Nodup := by
  have h1 : (metaKeys (meta.filter isPendingOrError)).Nodup :=
    List.Nodup.sublist ((List.filter_sublist meta).map _) hnd
  have hperm : List.Perm
      (metaKeys (sortByLastModified (meta.filter isPendingOrError)))
      (metaKeys (meta.filter isPendingOrError)) :=
    (List.perm_insertionSort _ _).map _
  have h2 : (metaKeys (sortByLastModified (meta.filter isPendingOrError))).Nodup :=
    hperm.symm.nodup h1
  exact List.Nodup.sublist ((List.take_sublist _ _).map _) h2

/-- One loop iteration, decomposed: its effect on the metadata is an UPDATE
at the change's own key with the status/remote-id dictated by the outcome,
its counter bump is dictated by the outcome, and its remote calls are
`opsOfChange`. -/
theorem uploadChange_eq (env : RemoteEnv) (lg : String → Nat → Option RRow)
    (meta : List SyncMetaRow) (counts : UploadCounters) (c : SyncMetaRow) (now : Nat) :
    uploadChange env lg meta counts c now =
      (updateSyncMetadata meta c.table_name c.record_id
         (outcomeStatus (uploadOutcome env lg c)) (outcomeSid (uploadOutcome env lg c)) now,
       (if isUploadedOutcome (uploadOutcome env lg c) then
          { counts with uploaded := counts.uploaded + 1 }
        else { counts with errors := counts.errors + 1 }),
       opsOfChange lg c) := by
  cases hl : lg c.table_name c.record_id with
  | none =>
    cases hs : c.supabase_id with
    | none =>
      simp [uploadChange, uploadOutcome, opsOfChange, outcomeStatus, outcomeSid,
        isUploadedOutcome, hl, hs]
    | some sid =>
      cases hd : env.deleteResult c.table_name sid <;>
        simp [uploadChange, uploadOutcome, opsOfChange, outcomeStatus, outcomeSid,
          isUploadedOutcome, hl, hs, hd]
  | some localRecord =>
    cases hs : c.supabase_id with
    | some sid =>
      cases hu : env.updateResult c.table_name sid localRecord.fields <;>
        simp [uploadChange, uploadOutcome, opsOfChange, outcomeStatus, outcomeSid,
          isUploadedOutcome, hl, hs, hu]
    | none =>
      cases hins : env.insertResult c.table_name localRecord.fields <;>
        simp [uploadChange, uploadOutcome, opsOfChange, outcomeStatus, outcomeSid,
          isUploadedOutcome, hl, hs, hins]

/-- Unfolding equation for `uploadLoop` on a nonempty batch. -/
theorem uploadLoop_cons (env : RemoteEnv) (lg : String → Nat → Option RRow) (now : Nat)
    (meta : List SyncMetaRow) (counts : UploadCounters) (ops : List RemoteOp)
    (c : SyncMetaRow) (cs : List SyncMetaRow) :
    uploadLoop env lg now meta counts ops (c :: cs) =
      uploadLoop env lg now (uploadChange env lg meta counts c now).1
        (uploadChange env lg meta counts c now).2.1
        (ops ++ (uploadChange env lg meta counts c now).2.2) cs := rfl

/-- Unfolding equation for `uploadLoop` with the iteration's effect spelled
out componentwise. -/
theorem uploadLoop_cons_eq (env : RemoteEnv) (lg : String → Nat → Option RRow)
    (now : Nat) (meta : List SyncMetaRow) (counts : UploadCounters)
    (ops : List RemoteOp) (c : SyncMetaRow) (cs : List SyncMetaRow) :
    uploadLoop env lg now meta counts ops (c :: cs) =
      uploadLoop env lg now
        (updateSyncMetadata meta c.table_name c.record_id
          (outcomeStatus (uploadOutcome env lg c)) (outcomeSid (uploadOutcome env lg c)) now)
        (if isUploadedOutcome (uploadOutcome env lg c) then
           { counts with uploaded := counts.uploaded + 1 }
         else { counts with errors := counts.errors + 1 })
        (ops ++ opsOfChange lg c) cs := by
  rw [uploadLoop_cons, uploadChange_eq]

/-- The loop leaves the metadata rows of keys outside the batch untouched. -/
theorem uploadLoop_meta_preserved (env : RemoteEnv) (lg : String → Nat → Option RRow)
    (now : Nat) (t : String) (i : Nat) :
    ∀ (cs : List SyncMetaRow) (meta : List SyncMetaRow) (counts : UploadCounters)
      (ops : List RemoteOp),
      (∀ c ∈ cs, ¬(c.table_name = t ∧ c.record_id = i)) →
      findMeta (uploadLoop env lg now meta counts ops cs).1 t i = findMeta meta t i := by
  intro cs
  induction cs with
  | nil => intro meta counts ops _; rfl
  | cons c cs ih =>
    intro meta counts ops h
    rw [uploadLoop_cons, ih _ _ _ fun x hx => h x (List.mem_cons_of_mem _ hx)]
    rw [uploadChange_eq]
    exact findMeta_update_other _ _ _ _ _ _ _ _
      fun hk => h c (List.mem_cons_self c cs) ⟨hk.1.symm, hk.2.symm⟩

/-- Per-record isolation of the upload loop: when the batch keys are unique
and the metadata holds each batch row under its key, every batch row's final
metadata is exactly its own outcome applied to it — independent of what
happened to the other rows. -/
theorem uploadLoop_isolation (env : RemoteEnv) (lg : String → Nat → Option RRow)
    (now : Nat) :
    ∀ (cs : List SyncMetaRow) (meta : List SyncMetaRow) (counts : UploadCounters)
      (ops : List RemoteOp),
      (metaKeys cs).Nodup →
      (∀ c ∈ cs, findMeta meta c.table_name c.record_id = some c) →
      ∀ c ∈ cs,
        findMeta (uploadLoop env lg now meta counts ops cs).1 c.table_name c.record_id
          = some (applyOutcomeRow c (uploadOutcome env lg c) now) := by
  intro cs
  induction cs with
  | nil => intro meta counts ops _ _ c hc; cases hc
  | cons c0 cs ih =>
    intro meta counts ops hnd hmem c hc
    have hnotin : (c0.table_name, c0.record_id) ∉ metaKeys cs :=
      (List.nodup_cons.mp hnd).1
    have hndtail : (metaKeys cs).Nodup := (List.nodup_cons.mp hnd).2
    rcases List.mem_cons.mp hc with rfl | hc'
    · rw [uploadLoop_cons]
      rw [uploadLoop_meta_preserved env lg now _ _ cs _ _ _ ?notin]
      case notin =>
        intro x hx hk
        exact hnotin (by
          rw [← hk.1, ← hk.2]
          exact List.mem_map_of_mem _ hx)
      rw [uploadChange_eq]
      show findMeta (updateSyncMetadata meta c.table_name c.record_id _ _ now)
          c.table_name c.record_id = _
      rw [findMeta_update_self, hmem c (List.mem_cons_self c cs)]
      rfl
    · have hmem' : ∀ x ∈ cs,
          findMeta (uploadChange env lg meta counts c0 now).1 x.table_name x.record_id
            = some x := by
        intro x hx
        rw [uploadChange_eq]
        show findMeta (updateSyncMetadata meta c0.table_name c0.record_id _ _ now)
            x.table_name x.record_id = some x
        rw [findMeta_update_other _ _ _ _ _ _ _ _ ?xkey]
        case xkey =>
          intro hk
          exact hnotin (by
            rw [← hk.1, ← hk.2]
            exact List.mem_map_of_mem _ hx)
        exact hmem x (List.mem_cons_of_mem _ hx)
      rw [uploadLoop_cons]
      exact ih _ _ _ hndtail hmem' c hc'

/-- Splitting `countUploaded` over the head of a batch. -/
theorem countUploaded_cons (env : RemoteEnv) (lg : String → Nat → Option RRow)
    (c : SyncMetaRow) (cs : List SyncMetaRow) :
    countUploaded env lg (c :: cs) =
      (if isUploadedOutcome (uploadOutcome env lg c) then 1 else 0) +
        countUploaded env lg cs := by
  cases ho : isUploadedOutcome (uploadOutcome env lg c) <;>
    simp [countUploaded, List.filter_cons, ho, Nat.add_comm]

/-- Splitting `countFailed` over the head of a batch. -/
theorem countFailed_cons (env : RemoteEnv) (lg : String → Nat → Option RRow)
    (c : SyncMetaRow) (cs : List SyncMetaRow) :
    countFailed env lg (c :: cs) =
      (if isUploadedOutcome (uploadOutcome env lg c) then 0 else 1) +
        countFailed env lg cs := by
  cases ho : isUploadedOutcome (uploadOutcome env lg c) <;>
    simp [countFailed, List.filter_cons, ho, Nat.add_comm]

/-- Every batch row is counted exactly once, successes and failures. -/
theorem countUploaded_add_countFailed (env : RemoteEnv)
    (lg : String → Nat → Option RRow) (cs : List SyncMetaRow) :
    countUploaded env lg cs + countFailed env lg cs = cs.length := by
  induction cs with
  | nil => rfl
  | cons c cs ih =>
    rw [countUploaded_cons, countFailed_cons, List.length_cons]
    cases ho : isUploadedOutcome (uploadOutcome env lg c) <;> simp [ho] <;> omega

/-- The loop's final counters: the starting counters plus one per success
(uploaded) and one per failure (errors) — the loop never stops early. -/
theorem uploadLoop_counts (env : RemoteEnv) (lg : String → Nat → Option RRow)
    (now : Nat) :
    ∀ (cs : List SyncMetaRow) (meta : List SyncMetaRow) (counts : UploadCounters)
      (ops : List RemoteOp),
      (uploadLoop env lg now meta counts ops cs).2.1.uploaded
          = counts.uploaded + countUploaded env lg cs ∧
      (uploadLoop env lg now meta counts ops cs).2.1.errors
          = counts.errors + countFailed env lg cs := by
  intro cs
  induction cs with
  | nil => intro meta counts ops; exact ⟨rfl, rfl⟩
  | cons c cs ih =>
    intro meta counts ops
    rw [uploadLoop_cons_eq, countUploaded_cons, countFailed_cons]
    rcases ih (updateSyncMetadata meta c.table_name c.record_id
        (outcomeStatus (uploadOutcome env lg c)) (outcomeSid (uploadOutcome env lg c)) now)
      (if isUploadedOutcome (uploadOutcome env lg c) then
         { counts with uploaded := counts.uploaded + 1 }
       else { counts with errors := counts.errors + 1 })
      (ops ++ opsOfChange lg c) with ⟨hu, he⟩
    constructor
    · rw [hu]
      cases ho : isUploadedOutcome (uploadOutcome env lg c) <;> (simp [ho]; try omega)
    · rw [he]
      cases ho : isUploadedOutcome (uploadOutcome env lg c) <;> (simp [ho]; try omega)

/-- The loop's final remote-call trace is the concatenation of the per-change
calls, in batch order. -/
theorem uploadLoop_ops (env : RemoteEnv) (lg : String → Nat → Option RRow)
    (now : Nat) :
    ∀ (cs : List SyncMetaRow) (meta : List SyncMetaRow) (counts : UploadCounters)
      (ops : List RemoteOp),
      (uploadLoop env lg now meta counts ops cs).2.2 = ops ++ opsOfBatch lg cs := by
  intro cs
  induction cs with
  | nil => intro meta counts ops; simp [uploadLoop, opsOfBatch]
  | cons c cs ih =>
    intro meta counts ops
    rw [uploadLoop_cons, uploadChange_eq, ih]
    simp [opsOfBatch]

/-- A remote call of one batch member appears in the batch trace. -/
theorem mem_opsOfBatch (lg : String → Nat → Option RRow) (x : RemoteOp)
    (c : SyncMetaRow) (cs : List SyncMetaRow) (hc : c ∈ cs)
    (hx : x ∈ opsOfChange lg c) : x ∈ opsOfBatch lg cs := by
  induction cs with
  | nil => cases hc
  | cons c0 cs ih =>
    rcases List.mem_cons.mp hc with rfl | hc'
    · exact List.mem_append_left _ hx
    · exact List.mem_append_right _ (ih hc')

/-- Claim C2 (amended): a `sync` call made while a pass is in flight is
rejected — with `{success:false, message:"Sync already in progress"}` and
zero store operations — only when `force` is false; with `force=true` the
guard is bypassed entirely and the call behaves exactly like a call with no
pass in flight (a second pass executes). -/
theorem sync_inflight_guard (env : SyncEnv) :
    sync env true false =
      (Except.ok { success := false, message := some "Sync already in progress",
                   error := none, uploadedCount := none, downloadedCount := none }, []) ∧
    sync env true true = sync env false false ∧
    sync env true true = sync env false true :=
  ⟨rfl, rfl, rfl⟩

/-- Claim C2 (counterexample): with a pass in flight and `force=true`, `sync`
does NOT return the in-progress rejection — in a healthy environment it runs
a full second pass, touching the stores, and returns `success:true`. -/
theorem sync_force_bypasses_guard :
    (sync envAllOk true true).1 =
      Except.ok { success := true, message := none, error := none,
                  uploadedCount := some 1, downloadedCount := some 2 } ∧
    (sync envAllOk true true).2 =
      ["checkConnection", "uploadToSupabase", "downloadFromSupabase",
       "logSyncOperation"] :=
  ⟨rfl, rfl⟩

/-- Claim C3: a pending metadata row whose local record no longer exists is
resolved by the upload phase: the remote counterpart is deleted when a
`supabase_id` is linked (provided that delete succeeds), the row's status
becomes `synced` with its `supabase_id` untouched, and the row is counted as
uploaded — it is never left `pending`. -/
theorem upload_tombstone_synced (env : RemoteEnv) (lg : String → Nat → Option RRow)
    (meta : List SyncMetaRow) (b now : Nat) (c : SyncMetaRow)
    (hnd : MetaKeysNodup meta)
    (hc : c ∈ getPendingChanges meta b)
    (habs : lg c.table_name c.record_id = none)
    (hdel : ∀ sid, c.supabase_id = some sid → env.deleteResult c.table_name sid = true) :
    findMeta (uploadToSupabase env lg meta b now).1 c.table_name c.record_id =
        some { c with sync_status := "synced", updated_at := now } ∧
    (∀ sid, c.supabase_id = some sid →
        RemoteOp.del c.table_name sid ∈ (uploadToSupabase env lg meta b now).2.2) ∧
    isUploadedOutcome (uploadOutcome env lg c) = true ∧
    (uploadToSupabase env lg meta b now).2.1.uploaded
        = countUploaded env lg (getPendingChanges meta b) := by
  have hout : uploadOutcome env lg c = UpOutcome.syncedKeep := by
    cases hs : c.supabase_id with
    | none => simp [uploadOutcome, habs, hs]
    | some sid => simp [uploadOutcome, habs, hs, hdel sid hs]
  have hiso := uploadLoop_isolation env lg now (getPendingChanges meta b) meta ⟨0, 0⟩ []
    (pendingKeys_nodup meta b hnd)
    (fun x hx => findMeta_of_nodup_mem meta hnd x (mem_meta_of_mem_pending meta b x hx))
    c hc
  refine ⟨?_, ?_, ?_, ?_⟩
  · show findMeta (uploadLoop env lg now meta ⟨0, 0⟩ [] (getPendingChanges meta b)).1
        c.table_name c.record_id = _
    rw [hiso, hout]
    rfl
  · intro sid hs
    show RemoteOp.del c.table_name sid ∈
        (uploadLoop env lg now meta ⟨0, 0⟩ [] (getPendingChanges meta b)).2.2
    rw [uploadLoop_ops]
    rw [List.nil_append]
    exact mem_opsOfBatch lg _ c _ hc (by simp [opsOfChange, habs, hs])
  · rw [hout]
    rfl
  · show (uploadLoop env lg now meta ⟨0, 0⟩ [] (getPendingChanges meta b)).2.1.uploaded = _
    rw [(uploadLoop_counts env lg now (getPendingChanges meta b) meta ⟨0, 0⟩ []).1]
    show 0 + countUploaded env lg (getPendingChanges meta b) = _
    exact Nat.zero_add _

/-- Claim C3 (witness): concrete tombstone — metadata `(tasks, 5)` pending
with remote id 9, local record gone, remote delete succeeding; after the
upload phase the row is `synced` with its remote id intact, and the remote
delete was issued. -/
theorem upload_tombstone_synced_witness :
    MetaKeysNodup [tombRow] ∧
    findMeta (uploadToSupabase envDelOk lgNone [tombRow] 50 9).1 "tasks" 5 =
      some { table_name := "tasks", record_id := 5, sync_status := "synced",
             supabase_id := some 9, last_modified := 1, created_at := 1,
             updated_at := 9 } ∧
    RemoteOp.del "tasks" 9 ∈ (uploadToSupabase envDelOk lgNone [tombRow] 50 9).2.2 := by
  have h := upload_tombstone_synced envDelOk lgNone [tombRow] 50 9 tombRow
    (by decide) (by decide) rfl (fun sid hs => rfl)
  exact ⟨by decide, h.1, h.2.1 9 rfl⟩

/-- Claim C4: the upload phase processes every batch member independently:
each row's final metadata is determined by its own remote outcome alone (so
rows after a failing one still reach `synced` when their own calls succeed),
a failing row's status becomes `error`, and the whole batch is always
processed to the end (uploaded + errors = batch size). -/
theorem upload_per_record_isolation (env : RemoteEnv) (lg : String → Nat → Option RRow)
    (meta : List SyncMetaRow) (b now : Nat)
    (hnd : MetaKeysNodup meta) :
    (∀ c ∈ getPendingChanges meta b,
       findMeta (uploadToSupabase env lg meta b now).1 c.table_name c.record_id =
         some (applyOutcomeRow c (uploadOutcome env lg c) now)) ∧
    (∀ c ∈ getPendingChanges meta b, uploadOutcome env lg c = UpOutcome.failed →
       findMeta (uploadToSupabase env lg meta b now).1 c.table_name c.record_id =
         some { c with sync_status := "error", updated_at := now }) ∧
    (uploadToSupabase env lg meta b now).2.1.uploaded
        + (uploadToSupabase env lg meta b now).2.1.errors
      = (getPendingChanges meta b).length := by
  have hiso := uploadLoop_isolation env lg now (getPendingChanges meta b) meta ⟨0, 0⟩ []
    (pendingKeys_nodup meta b hnd)
    (fun x hx => findMeta_of_nodup_mem meta hnd x (mem_meta_of_mem_pending meta b x hx))
  refine ⟨hiso, ?_, ?_⟩
  · intro c hc hfail
    have hres := hiso c hc
    rw [hfail] at hres
    exact hres
  · have hu := (uploadLoop_counts env lg now (getPendingChanges meta b) meta ⟨0, 0⟩ []).1
    have he := (uploadLoop_counts env lg now (getPendingChanges meta b) meta ⟨0, 0⟩ []).2
    have htot := countUploaded_add_countFailed env lg (getPendingChanges meta b)
    show (uploadLoop env lg now meta ⟨0, 0⟩ [] (getPendingChanges meta b)).2.1.uploaded
        + (uploadLoop env lg now meta ⟨0, 0⟩ [] (getPendingChanges meta b)).2.1.errors
      = (getPendingChanges meta b).length
    rw [hu, he]
    show 0 + countUploaded env lg (getPendingChanges meta b)
        + (0 + countFailed env lg (getPendingChanges meta b))
      = (getPendingChanges meta b).length
    omega

/-- Claim C4 (witness): a two-row batch where the first row's remote delete
fails and the second succeeds — the first ends `error`, the second still ends
`synced`, and both rows were processed. -/
theorem upload_per_record_isolation_witness :
    MetaKeysNodup [isoRow1, isoRow2] ∧
    findMeta (uploadToSupabase envAllFail lgNone [isoRow1, isoRow2] 50 9).1 "tasks" 1 =
      some { table_name := "tasks", record_id := 1, sync_status := "error",
             supabase_id := some 9, last_modified := 1, created_at := 1,
             updated_at := 9 } ∧
    findMeta (uploadToSupabase envAllFail lgNone [isoRow1, isoRow2] 50 9).1 "tasks" 2 =
      some { table_name := "tasks", record_id := 2, sync_status := "synced",
             supabase_id := none, last_modified := 2, created_at := 2,
             updated_at := 9 } ∧
    (uploadToSupabase envAllFail lgNone [isoRow1, isoRow2] 50 9).2.1.uploaded
        + (uploadToSupabase envAllFail lgNone [isoRow1, isoRow2] 50 9).2.1.errors = 2 := by
  have h := upload_per_record_isolation envAllFail lgNone [isoRow1, isoRow2] 50 9
    (by decide)
  exact ⟨by decide, h.2.1 isoRow1 (by decide) (by decide), h.1 isoRow2 (by decide), h.2.2⟩

/-- Claim C5 (amended): after the download phase processes a remote row, the
metadata write is a plain UPDATE: when a metadata row for `(table, id)`
already existed it is set to `synced` with `remote_id` equal to the row's id,
but when none existed (the freshly-inserted-local-row case for a record never
tracked locally) no metadata row is created — the metadata table is left
unchanged. -/
theorem download_updates_existing_metadata (tableName : String) (tableRows : List RRow)
    (cols : List String) (meta : List SyncMetaRow) (r : RRow) (now : Nat) :
    (∀ m, findMeta meta tableName r.id = some m →
       findMeta (downloadProcessRecord tableName tableRows cols meta r now).2
           tableName r.id =
         some { m with
                  sync_status := "synced"
                  supabase_id := some r.id
                  updated_at := now }) ∧
    (findMeta meta tableName r.id = none →
       (downloadProcessRecord tableName tableRows cols meta r now).2 = meta) := by
  constructor
  · intro m hm
    show findMeta (updateSyncMetadata meta tableName r.id "synced" (some r.id) now)
        tableName r.id = _
    rw [findMeta_update_self, hm]
    rfl
  · intro hnone
    show updateSyncMetadata meta tableName r.id "synced" (some r.id) now = meta
    exact updateSyncMetadata_eq_of_none meta tableName r.id _ _ now hnone

/-- Claim C5 (counterexample): a remote row `(projects, 5)` with no local
counterpart and no prior metadata is successfully inserted locally by the
download phase, yet afterwards NO sync metadata row for `(projects, 5)`
exists — the claimed `synced` row is absent. -/
theorem download_new_record_metadata_missing :
    (downloadProcessRecord "projects" [] ["id", "name"] []
        { id := 5, fields := [("name", "Remote")] } 3).1 =
      [{ id := 5, fields := [("name", "Remote")] }] ∧
    (downloadProcessRecord "projects" [] ["id", "name"] []
        { id := 5, fields := [("name", "Remote")] } 3).2 = [] ∧
    findMeta (downloadProcessRecord "projects" [] ["id", "name"] []
        { id := 5, fields := [("name", "Remote")] } 3).2 "projects" 5 = none := by
  decide

/-- Claim C5 (witness): when a pending metadata row for `(projects, 5)` does
exist beforehand, the download step leaves it `synced` with remote id 5. -/
theorem download_updates_existing_metadata_witness :
    findMeta [dlPriorRow] "projects" 5 = some dlPriorRow ∧
    findMeta (downloadProcessRecord "projects" [{ id := 5, fields := [("name", "Old")] }]
        ["id", "name"] [dlPriorRow] { id := 5, fields := [("name", "New")] } 3).2
        "projects" 5 =
      some { table_name := "projects", record_id := 5, sync_status := "synced",
             supabase_id := some 5, last_modified := 1, created_at := 1,
             updated_at := 3 } :=
  ⟨by decide,
   (download_updates_existing_metadata "projects" [{ id := 5, fields := [("name", "Old")] }]
     ["id", "name"] [dlPriorRow] { id := 5, fields := [("name", "New")] } 3).1
     dlPriorRow (by decide)⟩

/-- Claim C6: with `clearRemoteFirst=true` the clear loop does run over the
tracked tables in reverse dependency order, but because
`SYNC_CONFIG.TABLES.reverse()` mutates the shared array in place, the
subsequent export loop ALSO iterates the reversed array — dependents before
parents — instead of the claimed forward dependency order (which only the
no-clear path exhibits). -/
theorem exportAll_reverse_mutation :
    exportAllDataToSupabase true SYNC_CONFIG_TABLES =
      ([ExportOp.clearTable "task_tags", ExportOp.clearTable "tags",
        ExportOp.clearTable "tasks", ExportOp.clearTable "projects",
        ExportOp.exportTable "task_tags", ExportOp.exportTable "tags",
        ExportOp.exportTable "tasks", ExportOp.exportTable "projects"],
       ["task_tags", "tags", "tasks", "projects"]) ∧
    (exportAllDataToSupabase false SYNC_CONFIG_TABLES).1 =
      [ExportOp.exportTable "projects", ExportOp.exportTable "tasks",
       ExportOp.exportTable "tags", ExportOp.exportTable "task_tags"] := by
  decide

/-- Claim C7 (amended): `sync()` resolves to a result object — never throws —
on every path on which the sync-history write itself does not throw; every
such failure path carries the in-progress message or an error message.  (When
the history write throws, the exception escapes `sync()`; see the
counterexample.) -/
theorem sync_resolves_when_log_ok (env : SyncEnv) (inP force : Bool)
    (h : env.logOk = true) :
    ∃ r, (sync env inP force).1 = Except.ok r ∧
      (r.success = false →
        r.message = some "Sync already in progress" ∨ r.error.isSome = true) := by
  obtain ⟨cfg, ping, upRes, dRes, lOk, lMsg⟩ := env
  have hlog : lOk = true := h
  subst hlog
  cases hg : (inP && !force) with
  | true =>
    refine ⟨{ success := false, message := some "Sync already in progress",
              error := none, uploadedCount := none, downloadedCount := none },
            ?_, fun _ => Or.inl rfl⟩
    unfold sync
    rw [hg]
    rfl
  | false =>
    cases cfg with
    | false =>
      refine ⟨{ success := false, message := none,
                error := some "Supabase not configured",
                uploadedCount := none, downloadedCount := none },
              ?_, fun _ => Or.inr rfl⟩
      unfold sync syncPassBody checkConnection
      rw [hg]
      rfl
    | true =>
      cases ping with
      | false =>
        refine ⟨{ success := false, message := none,
                  error := some "No internet connection or Supabase unavailable",
                  uploadedCount := none, downloadedCount := none },
                ?_, fun _ => Or.inr rfl⟩
        unfold sync syncPassBody checkConnection
        rw [hg]
        rfl
      | true =>
        rcases upRes with e | u
        · refine ⟨{ success := false, message := none, error := some e,
                    uploadedCount := none, downloadedCount := none },
                  ?_, fun _ => Or.inr rfl⟩
          unfold sync syncPassBody checkConnection
          rw [hg]
          rfl
        · refine ⟨{ success := true, message := none, error := none,
                    uploadedCount := some u, downloadedCount := some dRes },
                  ?_, fun hcontra => nomatch hcontra⟩
          unfold sync syncPassBody checkConnection
          rw [hg]
          rfl

/-- Claim C7 (witness): in a fully healthy environment with a working log,
`sync` resolves. -/
theorem sync_resolves_when_log_ok_witness :
    envAllOk.logOk = true ∧
    ∃ r, (sync envAllOk false false).1 = Except.ok r ∧
      (r.success = false →
        r.message = some "Sync already in progress" ∨ r.error.isSome = true) :=
  ⟨rfl, sync_resolves_when_log_ok envAllOk false false rfl⟩

/-- Claim C7 (counterexample): when the sync-history write throws (local
database re-initialisation keeps failing inside `withRetry`), the public
`sync()` call rejects with that exception instead of resolving to a
`success:false` result object. -/
theorem sync_throws_on_log_failure :
    (sync envLogFail false false).1 = Except.error "Database not initialized" :=
  rfl

/-- Claim C8: `addTagToTask` and `removeTagFromTask` touch only the
`task_tags` junction table: projects, tasks, tags and the whole
`sync_metadata` table are untouched, so the upload phase's pending-changes
query returns exactly what it returned before. -/
theorem tag_assignment_not_tracked (db : LocalDb) (taskId tagId b : Nat) :
    (addTagToTask db taskId tagId).1.sync_metadata = db.sync_metadata ∧
    (addTagToTask db taskId tagId).1.projects = db.projects ∧
    (addTagToTask db taskId tagId).1.tasks = db.tasks ∧
    (addTagToTask db taskId tagId).1.tags = db.tags ∧
    getPendingChanges (addTagToTask db taskId tagId).1.sync_metadata b =
      getPendingChanges db.sync_metadata b ∧
    (removeTagFromTask db taskId tagId).1.sync_metadata = db.sync_metadata ∧
    (removeTagFromTask db taskId tagId).1.projects = db.projects ∧
    (removeTagFromTask db taskId tagId).1.tasks = db.tasks ∧
    (removeTagFromTask db taskId tagId).1.tags = db.tags ∧
    getPendingChanges (removeTagFromTask db taskId tagId).1.sync_metadata b =
      getPendingChanges db.sync_metadata b :=
  ⟨rfl, rfl, rfl, rfl, rfl, rfl, rfl, rfl, rfl, rfl⟩

/-- Claim C9: a successful `deleteProject(id)` removes every task of the
project from the tasks table and upserts a pending metadata row only for
`(projects, id)`: tags and task_tags are untouched, and the metadata row of
every other `(table, record)` pair — in particular of each cascade-deleted
task — is exactly what it was before, so their remote deletion is never
scheduled. -/
theorem deleteProject_cascade_frame (db : LocalDb) (id now : Nat)
    (hex : (db.projects.filter fun p => p.id == id).length ≠ 0) :
    (deleteProject db id now).2 = Except.ok id ∧
    (deleteProject db id now).1.tasks = db.tasks.filter (fun t => t.project_id != id) ∧
    (deleteProject db id now).1.projects = db.projects.filter (fun p => p.id != id) ∧
    (deleteProject db id now).1.tags = db.tags ∧
    (deleteProject db id now).1.task_tags = db.task_tags ∧
    findMeta (deleteProject db id now).1.sync_metadata "projects" id =
      some { table_name := "projects", record_id := id, sync_status := "pending",
             supabase_id := none, last_modified := now, created_at := now,
             updated_at := now } ∧
    (∀ t i, ¬(t = "projects" ∧ i = id) →
       findMeta (deleteProject db id now).1.sync_metadata t i =
         findMeta db.sync_metadata t i) := by
  have hne : ¬(((db.projects.filter fun p => p.id == id).length == 0) = true) := by
    simpa using hex
  have heq : deleteProject db id now =
      ({ projects := db.projects.filter fun p => p.id != id,
         tasks := db.tasks.filter fun t => t.project_id != id,
         tags := db.tags, task_tags := db.task_tags,
         sync_metadata := insertSyncMetadata db.sync_metadata "projects" id none now },
       Except.ok id) := by
    unfold deleteProject
    rw [if_neg hne]
  rw [heq]
  refine ⟨rfl, rfl, rfl, rfl, rfl, ?_, ?_⟩
  · exact findMeta_insert_self db.sync_metadata "projects" id none now
  · intro t i hti
    exact findMeta_insert_other db.sync_metadata "projects" id none now t i hti

/-- Claim C9 (witness): deleting project 1 of a concrete database removes its
task 5 but keeps task 6, and leaves the synced metadata row of the
cascade-deleted task 5 untouched. -/
theorem deleteProject_cascade_frame_witness :
    (dbNine.projects.filter fun p => p.id == 1).length ≠ 0 ∧
    (deleteProject dbNine 1 7).2 = Except.ok 1 ∧
    (deleteProject dbNine 1 7).1.tasks =
      [{ id := 6, project_id := 2, title := "Other", description := none }] ∧
    findMeta (deleteProject dbNine 1 7).1.sync_metadata "tasks" 5 =
      findMeta dbNine.sync_metadata "tasks" 5 := by
  have h := deleteProject_cascade_frame dbNine 1 7 (by decide)
  refine ⟨by decide, h.1, ?_, h.2.2.2.2.2.2 "tasks" 5 (by decide)⟩
  rw [h.2.1]
  decide

end BrainApp
